import Mathlib

/-!
Shallow embedding of `osrc_download.py`, a CLI tool that searches a vendor
portal for source releases and downloads a selected release.

The embedding models:
* the pure string manipulations of the script (Python `str.split` on a
  single-character separator, `str.strip`, `str.replace(c, "")`, slicing,
  UTF-8 encoding, `urllib.parse.quote`);
* the HTML scraping as total functions over an abstract page shape
  (tables / rows / cells / anchors for the search page, generic attributed
  elements for the modal page), with `Option` modelling the unhandled
  Python exceptions (IndexError / KeyError) raised on malformed pages;
* the streaming download loop as a fold over the 512 KiB chunking of the
  response body, accumulating the file content, the progress counter and
  an event trace;
* the whole script as `runProgram`: a function from the parsed CLI
  arguments, the remote responses and a fault-injection oracle to an
  optional (event trace, exit code) pair — `none` models an unhandled
  crash of the script.
-/

/-! ## Python string primitives -/

/-- Python `str.split(sep)` for a single-character separator, on the
character list of the string.  `"".split(c) = [""]`, and consecutive
separators produce empty fields, exactly as in Python. -/
def splitChar (c : Char) : List Char → List (List Char)
  | [] => [[]]
  | x :: xs =>
    match splitChar c xs with
    | [] => [[]]
    | h :: t => if x = c then [] :: h :: t else (x :: h) :: t

/-- Python `str.replace(c, "")` on a character list: every occurrence of
`c` is removed. -/
def removeChar (c : Char) : List Char → List Char
  | [] => []
  | x :: xs => if x = c then removeChar c xs else x :: removeChar c xs

/-- Python `str.strip()` whitespace predicate: space, tab, newline,
carriage return, vertical tab (11) and form feed (12). -/
def isPySpace (c : Char) : Bool :=
  c == ' ' || c == Char.ofNat 9 || c == Char.ofNat 10 || c == Char.ofNat 13 ||
  c == Char.ofNat 11 || c == Char.ofNat 12

/-- Python `str.strip()` on a character list: drop whitespace from both
ends. -/
def pyStrip (l : List Char) : List Char :=
  ((l.dropWhile isPySpace).reverse.dropWhile isPySpace).reverse

/-- Python `str.strip()` on strings. -/
def pyStripS (s : String) : String :=
  String.mk (pyStrip s.data)

/-- UTF-8 encoding of one Unicode code point, as a list of byte values. -/
def utf8EncodeCharNat (n : Nat) : List Nat :=
  if n < 128 then [n]
  else if n < 2048 then [192 + n / 64, 128 + n % 64]
  else if n < 65536 then [224 + n / 4096, 128 + (n / 64) % 64, 128 + n % 64]
  else [240 + n / 262144, 128 + (n / 4096) % 64, 128 + (n / 64) % 64, 128 + n % 64]

/-- Python `str.encode("utf-8")`: the UTF-8 byte sequence of a string. -/
def utf8Bytes (s : String) : List Nat :=
  s.data.flatMap (fun c => utf8EncodeCharNat c.toNat)

/-- Upper-case hexadecimal digit of a value below 16. -/
def hexDigit (n : Nat) : Char :=
  if n < 10 then Char.ofNat (48 + n) else Char.ofNat (55 + n)

/-- Bytes left unescaped by `urllib.parse.quote` with its default
`safe="/"`: ASCII letters, digits, `-`, `.`, `_`, `~` and `/`. -/
def isUrlSafeByte (b : Nat) : Bool :=
  (65 ≤ b && b ≤ 90) || (97 ≤ b && b ≤ 122) || (48 ≤ b && b ≤ 57) ||
  b == 45 || b == 46 || b == 95 || b == 126 || b == 47

/-- Percent-encode a byte sequence, leaving safe bytes untouched. -/
def percentEncode : List Nat → List Char
  | [] => []
  | b :: bs =>
    (if isUrlSafeByte b then [Char.ofNat b]
     else [Char.ofNat 37, hexDigit (b / 16), hexDigit (b % 16)]) ++ percentEncode bs

/-- Model of `urllib.parse.quote`: UTF-8 encode, then percent-encode. -/
def urlQuote (s : String) : String :=
  String.mk (percentEncode (utf8Bytes s))

/-! ## URL constants of the script -/

def baseURL : String := "https://opensource.samsung.com"

def searchURL : String := baseURL ++ "/uploadSearch?searchValue="

def modalURL : String := baseURL ++ "/downSrcMPop?uploadId="

def downSrcURL : String := baseURL ++ "/downSrcCode"

/-! ## Abstract HTML shapes

The scraper only inspects a fixed skeleton of the remote pages; the
abstraction keeps exactly the parts the script reads. -/

/-- An `<a>` tag; `href` is `none` when the attribute is absent (reading
it then raises `KeyError` in the script). -/
structure Anchor where
  href : Option String
deriving DecidableEq

/-- A `<td>` cell: its flattened text (`tag.text`) and its descendant
anchors in document order (`tag.find("a")` returns the first). -/
structure Cell where
  text : String
  anchors : List Anchor
deriving DecidableEq

/-- A `<tr>` row: its `class` attribute (`none` when absent) and its
`<td>` cells in order. -/
structure Row where
  cls : Option String
  cells : List Cell
deriving DecidableEq

/-- A `<table>`: its (multi-valued) `class` attribute and its rows in
document order. -/
structure Table where
  classes : List String
  rows : List Row
deriving DecidableEq

/-- The search response page: its tables in document order. -/
structure SearchPage where
  tables : List Table
deriving DecidableEq

/-- A generic attributed element of the modal page; the script only reads
the `type`, `name`, `id` and `value` attributes. -/
structure Element where
  tag : String
  type : Option String
  name : Option String
  id : Option String
  value : Option String
deriving DecidableEq

/-- The modal response page: its elements in document order. -/
structure ModalPage where
  elements : List Element
deriving DecidableEq

/-! ## Data model -/

/-- One parsed search-table row, as built at lines 70–75 of the script
(a dict with keys `uploadId`, `downloadPurpose`, `sourceVersion`,
`sourceModel`). -/
structure ReleaseCandidate where
  uploadId : String
  downloadPurpose : String
  sourceVersion : String
  sourceModel : String
deriving DecidableEq

/-- The candidate dict after the three modal-page assignments at lines
99–101 of the script: the four candidate keys plus `attachIds`, `_csrf`
(field `csrf` here) and `token` (the download token bytes). -/
structure DownloadAuthorization where
  uploadId : String
  downloadPurpose : String
  sourceVersion : String
  sourceModel : String
  attachIds : String
  csrf : String
  token : List Nat
deriving DecidableEq

/-! ## Search parsing (lines 57–75) -/

/-- BeautifulSoup row filter `find_all("tr", class_="")`: matches rows
whose class attribute is absent or empty. -/
def rowNoClass (r : Row) : Bool :=
  r.cls.getD "" == ""

/-- Parse one table row (lines 64–75): `sourceModel` from cell 1,
`sourceVersion` from cell 2, both stripped; `uploadId` as field 1 of the
first anchor's `href` split on a single quote (character 39);
`downloadPurpose` is the constant `"AOP"`.  `none` models the IndexError /
KeyError the script raises on a malformed row. -/
def parseRow (r : Row) : Option ReleaseCandidate := do
  let mcell ← r.cells.get? 1
  let vcell ← r.cells.get? 2
  let idcell ← r.cells.get? 5
  let a ← idcell.anchors.get? 0
  let h ← a.href
  let uid ← (splitChar (Char.ofNat 39) h.data).get? 1
  some { uploadId := String.mk uid, downloadPurpose := "AOP",
         sourceVersion := pyStripS vcell.text, sourceModel := pyStripS mcell.text }

/-- Parse all rows in order; the script's `for` loop crashes on the first
malformed row, modelled by propagating `none`. -/
def parseRows : List Row → Option (List ReleaseCandidate)
  | [] => some []
  | r :: rs => do
    let c ← parseRow r
    let cs ← parseRows rs
    some (c :: cs)

/-- The whole search scrape (lines 57–75): first table whose class list
contains `"tbl-downList"`, rows with empty class, one candidate per row. -/
def parseSearch (p : SearchPage) : Option (List ReleaseCandidate) := do
  let t ← (p.tables.filter (fun tb => tb.classes.contains "tbl-downList")).get? 0
  parseRows (t.rows.filter rowNoClass)

/-- Lines 47–48 of the script: first list element whose `sourceVersion`
equals the requested version, else `None`. -/
def find_source_by_sourcever (l : List ReleaseCandidate) (version : String) :
    Option ReleaseCandidate :=
  l.find? (fun item => item.sourceVersion == version)

/-! ## Modal-token resolution (lines 96–101) -/

/-- BeautifulSoup filter `find_all("input", type="checkbox")`. -/
def isCheckboxInput (e : Element) : Bool :=
  e.tag == "input" && e.type == some "checkbox"

/-- Lines 99–101: `attachIds` from the second checkbox input's `id`,
`_csrf` from the first element named `_csrf`, `token` from the first
element with id `token`, UTF-8 encoded; merged into the candidate dict. -/
def resolveAuthorization (c : ReleaseCandidate) (mp : ModalPage) :
    Option DownloadAuthorization := do
  let cb ← (mp.elements.filter isCheckboxInput).get? 1
  let aid ← cb.id
  let ce ← (mp.elements.filter (fun e => e.name == some "_csrf")).get? 0
  let cv ← ce.value
  let te ← (mp.elements.filter (fun e => e.id == some "token")).get? 0
  let tv ← te.value
  some { uploadId := c.uploadId, downloadPurpose := c.downloadPurpose,
         sourceVersion := c.sourceVersion, sourceModel := c.sourceModel,
         attachIds := aid, csrf := cv, token := utf8Bytes tv }

/-! ## Filename extraction (line 109) -/

/-- Line 109 of the script:
`headers["Content-Disposition"].split("=")[1][1:].replace(chr(34), "").replace(";", "")`
— split on `=` (character 61), take field 1, drop its first character,
remove every double quote (character 34) and every semicolon. -/
def extractFileName (h : String) : Option String := do
  let f ← (splitChar (Char.ofNat 61) h.data).get? 1
  some (String.mk (removeChar ';' (removeChar (Char.ofNat 34) (f.drop 1))))

/-- Quote (34) or semicolon, for the spec-side reading of line 109. -/
def isQuoteOrSemi (c : Char) : Bool :=
  c == Char.ofNat 34 || c == ';'

/-- Modelled from the spec: the claimed filename derivation, which removes
only the SURROUNDING double quotes and semicolons of the field (after
splitting on `=`, taking the second field and stripping its leading
character), instead of every occurrence. -/
def specFileName (h : String) : Option String := do
  let f ← (splitChar (Char.ofNat 61) h.data).get? 1
  some (String.mk
    ((((f.drop 1).dropWhile isQuoteOrSemi).reverse.dropWhile isQuoteOrSemi).reverse))

/-! ## Streaming download model (lines 112–130)

The response body is a byte list; `requests.iter_content(chunk_size=512*1024)`
is modelled as cutting the body into consecutive chunks of 512 KiB, the
last chunk possibly shorter.  The loop writes each chunk to the file and
then advances the progress bar by the chunk's length. -/

/-- The fixed chunk size of line 116: 512 KiB. -/
def chunkSize : Nat := 512 * 1024

/-- Fuel-indexed chunking; with fuel at least the list length it cuts the
whole list into `chunkSize`-byte pieces. -/
def chunksAux : Nat → List Nat → List (List Nat)
  | _, [] => []
  | 0, _ :: _ => []
  | fuel + 1, x :: xs =>
    List.take chunkSize (x :: xs) :: chunksAux fuel (List.drop chunkSize (x :: xs))

/-- The 512 KiB chunking of a response body. -/
def chunks (body : List Nat) : List (List Nat) :=
  chunksAux body.length body

/-! ## Events and the program trace -/

/-- The three portal endpoints contacted by the script. -/
inductive Endpoint
  | search (query : String)
  | modal (uploadId : String)
  | downSrc
deriving DecidableEq

/-- The concrete URL of an endpoint, as built by the script. -/
def Endpoint.url : Endpoint → String
  | Endpoint.search q => searchURL ++ q
  | Endpoint.modal u => modalURL ++ u
  | Endpoint.downSrc => downSrcURL

/-- Observable actions of one run of the script. -/
inductive Event
  | netGet (e : Endpoint)
  | netPost (e : Endpoint)
  | print (s : String)
  | progressInit (total : Nat)
  | progressUpdate (n : Nat)
  | progressClose
  | fileOpen (name : String)
  | fileWrite (name : String) (chunk : List Nat)
  | fileRemove (name : String)
deriving DecidableEq

/-- State carried by the streaming loop: the events emitted so far, the
bytes written to the destination file, and the cumulative progress-bar
value. -/
structure StreamState where
  events : List Event
  fileContent : List Nat
  progress : Nat
deriving DecidableEq

/-- One pass of the loop body (lines 116–118) per chunk: write the chunk,
then advance the progress bar by its length. -/
def streamStep (fn : String) : StreamState → List (List Nat) → StreamState
  | st, [] => st
  | st, c :: cs =>
    streamStep fn
      { events := st.events ++ [Event.fileWrite fn c, Event.progressUpdate c.length],
        fileContent := st.fileContent ++ c,
        progress := st.progress + c.length } cs

/-- The streaming loop run from the initial state. -/
def streamRun (fn : String) (cs : List (List Nat)) : StreamState :=
  streamStep fn { events := [], fileContent := [], progress := 0 } cs

/-- Events emitted by the loop over a chunk list. -/
def streamEvents (fn : String) (cs : List (List Nat)) : List Event :=
  (streamRun fn cs).events

/-! ## Whole-program model -/

/-- The parsed subcommand: `search` (with its `--json` flag) or
`download` (with its required `--version`). -/
inductive Command
  | search (asJson : Bool)
  | download (version : String)
deriving DecidableEq

/-- The parsed CLI arguments: the required `--model` and the optional
subcommand (argparse accepts an invocation with no subcommand; then
`args.command` is `None`). -/
structure Args where
  model : String
  command : Option Command
deriving DecidableEq

/-- The remote world one run interacts with: the search page, the modal
page, and the download response's headers and body. -/
structure Env where
  searchPage : SearchPage
  modalPage : ModalPage
  contentDisposition : String
  contentLength : Nat
  body : List Nat
deriving DecidableEq

/-- Fault injection for the streaming loop: `ok` for an undisturbed run,
`keyboard k` for a `KeyboardInterrupt` delivered just before chunk `k` is
processed, `err k` for any other exception raised there. -/
inductive Fault
  | ok
  | keyboard (k : Nat)
  | err (k : Nat)
deriving DecidableEq

/-- The line-113 message. -/
def downloadMsg (fn ver : String) : String :=
  "Downloading " ++ fn ++ " (" ++ ver ++ "), please do not terminate the script!"

/-- One JSON string field. -/
def jsonField (k v : String) : String :=
  "\"" ++ k ++ "\": \"" ++ v ++ "\""

/-- One candidate as a JSON object, keys in the dict insertion order of
lines 70–75, rendered like `json.dumps(..., indent=4)`. -/
def jsonCandidate (c : ReleaseCandidate) : String :=
  "    \x7b\n        " ++ jsonField "uploadId" c.uploadId ++ ",\n        " ++
  jsonField "downloadPurpose" c.downloadPurpose ++ ",\n        " ++
  jsonField "sourceVersion" c.sourceVersion ++ ",\n        " ++
  jsonField "sourceModel" c.sourceModel ++ "\n    \x7d"

/-- `json.dumps(dataList, indent=4)` (line 81), modulo string escaping. -/
def jsonDump (l : List ReleaseCandidate) : String :=
  match l with
  | [] => "[]"
  | c :: cs => "[\n" ++ (cs.foldl (fun acc d => acc ++ ",\n" ++ jsonCandidate d) (jsonCandidate c)) ++ "\n]"

/-- The human-readable listing of lines 83–84, one print per candidate. -/
def searchPrints (l : List ReleaseCandidate) : List Event :=
  l.enum.map (fun p =>
    Event.print ("[" ++ toString (p.1 + 1) ++ "] Model: " ++ p.2.sourceModel ++
      " | Version: " ++ p.2.sourceVersion))

/-- The whole script as a function from arguments, remote responses and a
fault oracle to an optional (trace, exit code):

* `none` models an unhandled crash (malformed search table, malformed
  modal page, or a `Content-Disposition` header without `=`);
* exit code 0 for plain termination, 1 for the missing-version diagnostic
  of lines 90–92 or the broad exception handler of lines 126–130, 130 for
  the `KeyboardInterrupt` handler of lines 121–125.

A fault index at or beyond the number of chunks means the injected
exception never fires inside the loop, so the run completes normally. -/
def runProgram (args : Args) (env : Env) (fault : Fault) : Option (List Event × Nat) :=
  let searchEv := Event.netGet (Endpoint.search (urlQuote args.model))
  match parseSearch env.searchPage with
  | none => none
  | some dataList =>
    match args.command with
    | none => some ([searchEv], 0)
    | some (Command.search true) => some ([searchEv, Event.print (jsonDump dataList)], 0)
    | some (Command.search false) => some (searchEv :: searchPrints dataList, 0)
    | some (Command.download v) =>
      match find_source_by_sourcever dataList v with
      | none => some ([searchEv, Event.print ("Invalid source version: " ++ v)], 1)
      | some sel =>
        match resolveAuthorization sel env.modalPage with
        | none => none
        | some _auth =>
          match extractFileName env.contentDisposition with
          | none => none
          | some fn =>
            let pre := [searchEv,
              Event.netGet (Endpoint.modal sel.uploadId),
              Event.netPost Endpoint.downSrc,
              Event.print (downloadMsg fn sel.sourceVersion),
              Event.progressInit env.contentLength,
              Event.fileOpen fn]
            let cs := chunks env.body
            match fault with
            | Fault.ok =>
              some (pre ++ streamEvents fn cs ++ [Event.progressClose, Event.print "Done!"], 0)
            | Fault.keyboard k =>
              if k < cs.length then
                some (pre ++ streamEvents fn (cs.take k) ++
                  [Event.progressClose, Event.fileRemove fn, Event.print "Interrupted!"], 130)
              else
                some (pre ++ streamEvents fn cs ++ [Event.progressClose, Event.print "Done!"], 0)
            | Fault.err k =>
              if k < cs.length then
                some (pre ++ streamEvents fn (cs.take k) ++
                  [Event.progressClose, Event.fileRemove fn, Event.print "Error!"], 1)
              else
                some (pre ++ streamEvents fn cs ++ [Event.progressClose, Event.print "Done!"], 0)

/-! ## File-existence semantics of a trace -/

/-- Effect of one event on whether the file named `n` exists: `open`
creates it, `remove` deletes it, everything else leaves it alone. -/
def fileStep (n : String) (b : Bool) : Event → Bool
  | Event.fileOpen m => if m = n then true else b
  | Event.fileRemove m => if m = n then false else b
  | _ => b

/-- Whether the file named `n` exists after a trace, assuming it did not
exist before the run. -/
def fileExistsAfter (n : String) (tr : List Event) : Bool :=
  tr.foldl (fileStep n) false

/-! ## Helper lemmas -/

/-- Removing every occurrence of a character is filtering it out. -/
theorem removeChar_eq_filter (c : Char) (l : List Char) :
    removeChar c l = l.filter (fun x => x != c) := by
  induction l with
  | nil => rfl
  | cons x xs ih =>
    by_cases hx : x = c
    · simp [removeChar, hx, ih]
    · simp [removeChar, hx, ih, List.filter_cons]

/-- Dropping a prefix by a predicate is idempotent. -/
theorem dropWhile_dropWhile (p : α → Bool) (l : List α) :
    (l.dropWhile p).dropWhile p = l.dropWhile p := by
  induction l with
  | nil => rfl
  | cons x xs ih =>
    by_cases hx : p x
    · simpa [List.dropWhile, hx] using ih
    · simp [List.dropWhile, hx]

/-- The head surviving `dropWhile` fails the predicate. -/
theorem dropWhile_head_false (p : α → Bool) (l : List α) (x : α) (xs : List α)
    (h : l.dropWhile p = x :: xs) : p x = false := by
  induction l with
  | nil => simp [List.dropWhile] at h
  | cons y ys ih =>
    by_cases hy : p y
    · exact ih (by simpa [List.dropWhile, hy] using h)
    · rw [List.dropWhile_cons_of_neg (by simpa using hy)] at h
      cases h
      simpa using hy

/-- `dropWhile` removes an initial segment of the list. -/
theorem dropWhile_front (p : α → Bool) (l : List α) :
    ∃ s, s ++ l.dropWhile p = l := by
  induction l with
  | nil => exact ⟨[], rfl⟩
  | cons x xs ih =>
    by_cases hx : p x
    · obtain ⟨s, hs⟩ := ih
      exact ⟨x :: s, by simp [List.dropWhile_cons_of_pos hx, hs]⟩
    · exact ⟨[], by simp [List.dropWhile_cons_of_neg (by simpa using hx)]⟩

/-- A stripped string has no leading whitespace. -/
theorem pyStrip_no_lead (l : List Char) :
    (pyStrip l).dropWhile isPySpace = pyStrip l := by
  unfold pyStrip
  set A := l.dropWhile isPySpace with hA
  set r := A.reverse.dropWhile isPySpace with hr
  cases hrr : r.reverse with
  | nil => simp [hrr]
  | cons x t =>
    obtain ⟨s, hs⟩ := dropWhile_front isPySpace A.reverse
    have hAeq : A = r.reverse ++ s.reverse := by
      have := congrArg List.reverse hs
      simpa [List.reverse_append] using this.symm
    have hx : isPySpace x = false := by
      refine dropWhile_head_false isPySpace l x (t ++ s.reverse) ?_
      rw [← hA, hAeq, hrr]; rfl
    rw [List.dropWhile_cons_of_neg (by simpa using hx)]

/-- A stripped string has no trailing whitespace. -/
theorem pyStrip_no_trail (l : List Char) :
    (pyStrip l).reverse.dropWhile isPySpace = (pyStrip l).reverse := by
  unfold pyStrip
  rw [List.reverse_reverse]
  exact dropWhile_dropWhile isPySpace (l.dropWhile isPySpace).reverse

/-- With enough fuel, flattening the chunking recovers the whole body. -/
theorem chunksAux_flatten (fuel : Nat) (l : List Nat) (h : l.length ≤ fuel) :
    (chunksAux fuel l).flatten = l := by
  induction fuel generalizing l with
  | zero =>
    cases l with
    | nil => rfl
    | cons x xs => simp at h
  | succ fuel ih =>
    cases l with
    | nil => rfl
    | cons x xs =>
      have hdrop : (List.drop chunkSize (x :: xs)).length ≤ fuel := by
        rw [List.length_drop]
        have hcs : 1 ≤ chunkSize := by norm_num [chunkSize]
        have hl : (x :: xs).length ≤ fuel + 1 := h
        omega
      simp only [chunksAux, List.flatten_cons, ih _ hdrop, List.take_append_drop]

/-- Flattening the 512 KiB chunking recovers the whole body. -/
theorem chunks_flatten (body : List Nat) : (chunks body).flatten = body :=
  chunksAux_flatten body.length body (Nat.le_refl _)

/-- Every chunk is non-empty and at most 512 KiB long. -/
theorem chunksAux_mem_bounds (fuel : Nat) (l : List Nat) (c : List Nat)
    (h : c ∈ chunksAux fuel l) : 0 < c.length ∧ c.length ≤ chunkSize := by
  induction fuel generalizing l with
  | zero =>
    cases l with
    | nil => simp [chunksAux] at h
    | cons x xs => simp [chunksAux] at h
  | succ fuel ih =>
    cases l with
    | nil => simp [chunksAux] at h
    | cons x xs =>
      simp only [chunksAux, List.mem_cons] at h
      rcases h with h | h
      · subst h
        constructor
        · have hcs : 0 < chunkSize := by norm_num [chunkSize]
          simp [List.length_take]
          omega
        · simp [List.length_take]
      · exact ih _ h

/-- Closed form of the streaming loop from any starting state: it appends
one write event and one progress event per chunk, appends the chunk bytes
to the file content, and adds the chunk lengths to the progress value. -/
theorem streamStep_spec (fn : String) (cs : List (List Nat)) (st : StreamState) :
    streamStep fn st cs =
      { events := st.events ++
          cs.flatMap (fun c => [Event.fileWrite fn c, Event.progressUpdate c.length]),
        fileContent := st.fileContent ++ cs.flatten,
        progress := st.progress + (cs.map List.length).sum } := by
  induction cs generalizing st with
  | nil => simp [streamStep]
  | cons c cs ih =>
    simp only [streamStep, ih, List.flatMap_cons, List.flatten_cons, List.map_cons,
      List.sum_cons, List.append_assoc, Nat.add_assoc]

/-- `find?` over a split list whose left part has no match returns the
head of the right part when it matches. -/
theorem find_source_first (v : String) (l1 l2 : List ReleaseCandidate)
    (c : ReleaseCandidate) (hc : c.sourceVersion = v)
    (h1 : ∀ x ∈ l1, x.sourceVersion ≠ v) :
    find_source_by_sourcever (l1 ++ c :: l2) v = some c := by
  induction l1 with
  | nil =>
    simp [find_source_by_sourcever, List.find?_cons, hc]
  | cons y ys ih =>
    have hy : (y.sourceVersion == v) = false := by
      have := h1 y (by simp)
      simpa using this
    have ihh := ih (fun x hx => h1 x (by simp [hx]))
    simpa [find_source_by_sourcever, List.find?_cons, hy] using ihh

/-- Pointwise characterization of a successful `parseRows`: same length,
and the i-th candidate is the parse of the i-th row. -/
theorem parseRows_pointwise (rs : List Row) (L : List ReleaseCandidate)
    (h : parseRows rs = some L) :
    L.length = rs.length ∧
    ∀ i r c, rs.get? i = some r → L.get? i = some c → parseRow r = some c := by
  induction rs generalizing L with
  | nil =>
    cases h
    exact ⟨rfl, by intro i r c hr; simp at hr⟩
  | cons r rs ih =>
    simp only [parseRows, Option.bind_eq_bind, bind, Option.bind] at h
    cases hc : parseRow r with
    | none => rw [hc] at h; exact absurd h (by simp)
    | some c0 =>
      rw [hc] at h
      cases hcs : parseRows rs with
      | none => rw [hcs] at h; exact absurd h (by simp)
      | some cs0 =>
        rw [hcs] at h
        cases h
        obtain ⟨hlen, hpt⟩ := ih cs0 hcs
        refine ⟨by simp [hlen], ?_⟩
        intro i r' c' hr' hc'
        cases i with
        | zero =>
          simp at hr' hc'
          rw [← hr', ← hc'] at *
          exact hc
        | succ i =>
          exact hpt i r' c' (by simpa using hr') (by simpa using hc')

/-- A member of a successful `parseRows` output is the parse of some row. -/
theorem parseRows_mem (rs : List Row) (L : List ReleaseCandidate)
    (h : parseRows rs = some L) (c : ReleaseCandidate) (hc : c ∈ L) :
    ∃ r ∈ rs, parseRow r = some c := by
  induction rs generalizing L with
  | nil => cases h; simp at hc
  | cons r rs ih =>
    simp only [parseRows, Option.bind_eq_bind, bind, Option.bind] at h
    cases hc0 : parseRow r with
    | none => rw [hc0] at h; exact absurd h (by simp)
    | some c0 =>
      rw [hc0] at h
      cases hcs : parseRows rs with
      | none => rw [hcs] at h; exact absurd h (by simp)
      | some cs0 =>
        rw [hcs] at h
        cases h
        rcases List.mem_cons.mp hc with hh | hh
        · exact ⟨r, by simp, by rw [hc0, hh]⟩
        · obtain ⟨r', hr', hpr'⟩ := ih cs0 hcs hh
          exact ⟨r', by simp [hr'], hpr'⟩

/-- Characterization of a successful row parse: the cells and anchor
exist at the fixed positions and the candidate fields are built from
them. -/
theorem parseRow_spec (r : Row) (c : ReleaseCandidate) (h : parseRow r = some c) :
    ∃ mcell vcell idcell a hr uid,
      r.cells.get? 1 = some mcell ∧ r.cells.get? 2 = some vcell ∧
      r.cells.get? 5 = some idcell ∧ idcell.anchors.get? 0 = some a ∧
      a.href = some hr ∧ (splitChar (Char.ofNat 39) hr.data).get? 1 = some uid ∧
      c = { uploadId := String.mk uid, downloadPurpose := "AOP",
            sourceVersion := pyStripS vcell.text, sourceModel := pyStripS mcell.text } := by
  simp only [parseRow, Option.bind_eq_bind, Option.bind_eq_some] at h
  obtain ⟨mcell, h1, vcell, h2, idcell, h5, a, ha, hr, hh, uid, hu, hc⟩ := h
  exact ⟨mcell, vcell, idcell, a, hr, uid, h1, h2, h5, ha, hh, hu, by
    cases hc; rfl⟩

/-- A trace ending in the cleanup handler (close bar, remove file, report)
leaves the destination file non-existent. -/
theorem fileExistsAfter_cleanup (n : String) (l : List Event) (s : String) :
    fileExistsAfter n (l ++ [Event.progressClose, Event.fileRemove n, Event.print s]) = false := by
  unfold fileExistsAfter
  rw [List.foldl_append]
  simp [fileStep]

/-- Every event of the streaming loop is a file write or a progress
update. -/
theorem streamEvents_shape (fn : String) (cs : List (List Nat)) (e : Event)
    (he : e ∈ streamEvents fn cs) :
    (∃ c, e = Event.fileWrite fn c) ∨ (∃ k, e = Event.progressUpdate k) := by
  unfold streamEvents streamRun at he
  rw [streamStep_spec] at he
  simp only [List.nil_append, List.mem_flatMap] at he
  obtain ⟨c, _, hc⟩ := he
  simp only [List.mem_cons, List.not_mem_nil, or_false] at hc
  rcases hc with h | h
  · exact Or.inl ⟨c, h⟩
  · exact Or.inr ⟨c.length, h⟩

/-- The streaming loop issues no network request. -/
theorem no_modal_in_stream (fn : String) (cs : List (List Nat)) (u : String) :
    Event.netGet (Endpoint.modal u) ∉ streamEvents fn cs := by
  intro h
  rcases streamEvents_shape fn cs _ h with ⟨c, hc⟩ | ⟨k, hk⟩
  · exact absurd hc (by simp)
  · exact absurd hk (by simp)

/-- A non-empty body yields at least one chunk. -/
theorem chunks_len_pos (body : List Nat) (hb : body ≠ []) :
    0 < (chunks body).length := by
  rcases hch : chunks body with _ | ⟨c, cs⟩
  · have hfl := chunks_flatten body
    rw [hch] at hfl
    simp only [List.flatten_nil] at hfl
    exact absurd hfl.symm hb
  · simp

/-- C2: the streaming loop reads the body in fixed 512 KiB chunks, writes
each chunk and then advances the progress indicator by the chunk's
length; on normal completion exactly `body.length` bytes have been
written and the final cumulative progress equals `body.length`. -/
theorem C2_stream_writes_all_bytes (fn : String) (body : List Nat) :
    (streamRun fn (chunks body)).fileContent = body ∧
    (streamRun fn (chunks body)).progress = body.length ∧
    (streamRun fn (chunks body)).events =
      (chunks body).flatMap
        (fun c => [Event.fileWrite fn c, Event.progressUpdate c.length]) ∧
    ∀ c ∈ chunks body, 0 < c.length ∧ c.length ≤ chunkSize := by
  unfold streamRun
  rw [streamStep_spec]
  refine ⟨by simp [chunks_flatten], ?_, by simp, ?_⟩
  · show 0 + ((chunks body).map List.length).sum = body.length
    rw [Nat.zero_add, ← List.length_flatten, chunks_flatten]
  · intro c hc
    exact chunksAux_mem_bounds _ _ c hc

/-- C1: when no candidate's `sourceVersion` equals the requested version,
the download command prints the diagnostic and exits with status 1; the
trace holds the search request only — no request to the modal endpoint
and no download POST was issued. -/
theorem C1_no_match_exits_before_network (m v : String) (env : Env) (fault : Fault)
    (l : List ReleaseCandidate)
    (hp : parseSearch env.searchPage = some l)
    (hno : ∀ c ∈ l, c.sourceVersion ≠ v) :
    runProgram { model := m, command := some (Command.download v) } env fault =
      some ([Event.netGet (Endpoint.search (urlQuote m)),
             Event.print ("Invalid source version: " ++ v)], 1) ∧
    ∀ tr code,
      runProgram { model := m, command := some (Command.download v) } env fault =
        some (tr, code) →
      (∀ u, Event.netGet (Endpoint.modal u) ∉ tr) ∧
        Event.netPost Endpoint.downSrc ∉ tr := by
  have hfind : find_source_by_sourcever l v = none := by
    apply List.find?_eq_none.mpr
    intro x hx
    simpa using hno x hx
  have hrun : runProgram { model := m, command := some (Command.download v) } env fault =
      some ([Event.netGet (Endpoint.search (urlQuote m)),
             Event.print ("Invalid source version: " ++ v)], 1) := by
    simp only [runProgram, hp, hfind]
  refine ⟨hrun, ?_⟩
  intro tr code htr
  rw [hrun] at htr
  simp only [Option.some.injEq, Prod.mk.injEq] at htr
  obtain ⟨h1, _⟩ := htr
  subst h1
  constructor
  · intro u hu
    simp at hu
  · intro hu
    simp at hu

/-- C10: with the model flag but no subcommand, argument parsing accepts
the invocation (`args.command = none`), the run still performs the search
GET (and the table extraction feeding `dataList`), prints nothing, and
exits with status 0. -/
theorem C10_no_subcommand_search_only (m : String) (env : Env) (fault : Fault)
    (l : List ReleaseCandidate)
    (hp : parseSearch env.searchPage = some l) :
    runProgram { model := m, command := none } env fault =
      some ([Event.netGet (Endpoint.search (urlQuote m))], 0) ∧
    ∀ tr code,
      runProgram { model := m, command := none } env fault = some (tr, code) →
      code = 0 ∧ Event.netGet (Endpoint.search (urlQuote m)) ∈ tr ∧
        ∀ s, Event.print s ∉ tr := by
  have hrun : runProgram { model := m, command := none } env fault =
      some ([Event.netGet (Endpoint.search (urlQuote m))], 0) := by
    simp only [runProgram, hp]
  refine ⟨hrun, ?_⟩
  intro tr code htr
  rw [hrun] at htr
  simp only [Option.some.injEq, Prod.mk.injEq] at htr
  obtain ⟨h1, h2⟩ := htr
  subst h1
  refine ⟨h2.symm, by simp, ?_⟩
  intro s hs
  simp at hs

/-- C9: with several candidates matching the requested version, the
download command selects the first match in page order, and every request
to the modal endpoint in any run over that candidate list uses the first
match's uploadId — later matches are never used. -/
theorem C9_first_match_selected (v : String) (l1 l2 : List ReleaseCandidate)
    (c : ReleaseCandidate) (hc : c.sourceVersion = v)
    (h1 : ∀ x ∈ l1, x.sourceVersion ≠ v) :
    find_source_by_sourcever (l1 ++ c :: l2) v = some c ∧
    ∀ m env fault tr code,
      parseSearch env.searchPage = some (l1 ++ c :: l2) →
      runProgram { model := m, command := some (Command.download v) } env fault =
        some (tr, code) →
      ∀ u, Event.netGet (Endpoint.modal u) ∈ tr → u = c.uploadId := by
  have hfind := find_source_first v l1 l2 c hc h1
  refine ⟨hfind, ?_⟩
  intro m env fault tr code hp hrun u hu
  simp only [runProgram, hp, hfind] at hrun
  cases hres : resolveAuthorization c env.modalPage with
  | none => rw [hres] at hrun; simp at hrun
  | some auth =>
    rw [hres] at hrun
    cases hfn : extractFileName env.contentDisposition with
    | none => rw [hfn] at hrun; simp at hrun
    | some fn =>
      rw [hfn] at hrun
      have hmem : ∀ evs suffix : List Event,
          (∀ e ∈ evs, (∃ ch, e = Event.fileWrite fn ch) ∨ (∃ n, e = Event.progressUpdate n)) →
          (∀ e ∈ suffix, Event.netGet (Endpoint.modal u) ≠ e) →
          Event.netGet (Endpoint.modal u) ∈
            ([Event.netGet (Endpoint.search (urlQuote m)),
              Event.netGet (Endpoint.modal c.uploadId), Event.netPost Endpoint.downSrc,
              Event.print (downloadMsg fn c.sourceVersion),
              Event.progressInit env.contentLength, Event.fileOpen fn] ++ evs ++ suffix) →
          u = c.uploadId := by
        intro evs suffix hevs hsuf hm
        simp only [List.mem_append, List.mem_cons, List.not_mem_nil, or_false] at hm
        rcases hm with ((h | h | h | h | h | h) | h) | h
        · simp at h
        · simpa using h
        · simp at h
        · simp at h
        · simp at h
        · simp at h
        · rcases hevs _ h with ⟨ch, hch⟩ | ⟨n, hn⟩
          · simp at hch
          · simp at hn
        · exact absurd rfl (hsuf _ h)
      cases fault with
      | ok =>
        simp only [Option.some.injEq, Prod.mk.injEq] at hrun
        obtain ⟨htr, _⟩ := hrun
        subst htr
        refine hmem _ _ (fun e he => streamEvents_shape fn _ e he) ?_ hu
        intro e he
        simp only [List.mem_cons, List.not_mem_nil, or_false] at he
        rcases he with h | h <;> simp [h]
      | keyboard k =>
        by_cases hk : k < (chunks env.body).length
        · simp only [if_pos hk] at hrun
          simp only [Option.some.injEq, Prod.mk.injEq] at hrun
          obtain ⟨htr, _⟩ := hrun
          subst htr
          refine hmem _ _ (fun e he => streamEvents_shape fn _ e he) ?_ hu
          intro e he
          simp only [List.mem_cons, List.not_mem_nil, or_false] at he
          rcases he with h | h | h <;> simp [h]
        · simp only [if_neg hk] at hrun
          simp only [Option.some.injEq, Prod.mk.injEq] at hrun
          obtain ⟨htr, _⟩ := hrun
          subst htr
          refine hmem _ _ (fun e he => streamEvents_shape fn _ e he) ?_ hu
          intro e he
          simp only [List.mem_cons, List.not_mem_nil, or_false] at he
          rcases he with h | h <;> simp [h]
      | err k =>
        by_cases hk : k < (chunks env.body).length
        · simp only [if_pos hk] at hrun
          simp only [Option.some.injEq, Prod.mk.injEq] at hrun
          obtain ⟨htr, _⟩ := hrun
          subst htr
          refine hmem _ _ (fun e he => streamEvents_shape fn _ e he) ?_ hu
          intro e he
          simp only [List.mem_cons, List.not_mem_nil, or_false] at he
          rcases he with h | h | h <;> simp [h]
        · simp only [if_neg hk] at hrun
          simp only [Option.some.injEq, Prod.mk.injEq] at hrun
          obtain ⟨htr, _⟩ := hrun
          subst htr
          refine hmem _ _ (fun e he => streamEvents_shape fn _ e he) ?_ hu
          intro e he
          simp only [List.mem_cons, List.not_mem_nil, or_false] at he
          rcases he with h | h <;> simp [h]

/-- C3: a `KeyboardInterrupt` delivered during the streaming loop makes
the run close the progress indicator, delete the partially written
destination file (which therefore does not exist afterwards), print
`"Interrupted!"` — a message beginning with "Interrupted" — and exit with
status 130; the trace ends with exactly that cleanup sequence. -/
theorem C3_interrupt_cleanup (m v : String) (env : Env)
    (l : List ReleaseCandidate) (sel : ReleaseCandidate)
    (auth : DownloadAuthorization) (fn : String) (k : Nat)
    (hp : parseSearch env.searchPage = some l)
    (hf : find_source_by_sourcever l v = some sel)
    (hr : resolveAuthorization sel env.modalPage = some auth)
    (he : extractFileName env.contentDisposition = some fn)
    (hk : k < (chunks env.body).length) :
    ∃ tr, runProgram { model := m, command := some (Command.download v) } env
        (Fault.keyboard k) = some (tr, 130) ∧
      (∃ tr0, tr = tr0 ++
        [Event.progressClose, Event.fileRemove fn, Event.print "Interrupted!"]) ∧
      Event.progressClose ∈ tr ∧ Event.fileRemove fn ∈ tr ∧
      Event.print "Interrupted!" ∈ tr ∧
      fileExistsAfter fn tr = false := by
  have hrun : runProgram { model := m, command := some (Command.download v) } env
      (Fault.keyboard k) =
      some (([Event.netGet (Endpoint.search (urlQuote m)),
              Event.netGet (Endpoint.modal sel.uploadId), Event.netPost Endpoint.downSrc,
              Event.print (downloadMsg fn sel.sourceVersion),
              Event.progressInit env.contentLength, Event.fileOpen fn] ++
             streamEvents fn ((chunks env.body).take k) ++
             [Event.progressClose, Event.fileRemove fn, Event.print "Interrupted!"]), 130) := by
    simp only [runProgram, hp, hf, hr, he, if_pos hk]
  refine ⟨_, hrun, ⟨_, rfl⟩, ?_, ?_, ?_, ?_⟩
  · simp
  · simp
  · simp
  · exact fileExistsAfter_cleanup fn _ "Interrupted!"

/-- C4: an exception other than a user interruption raised during the
streaming loop makes the run close the progress indicator, delete the
partially written destination file (which therefore does not exist
afterwards), print `"Error!"` — a message beginning with "Error" — and
exit with status 1; the trace ends with exactly that cleanup sequence. -/
theorem C4_error_cleanup (m v : String) (env : Env)
    (l : List ReleaseCandidate) (sel : ReleaseCandidate)
    (auth : DownloadAuthorization) (fn : String) (k : Nat)
    (hp : parseSearch env.searchPage = some l)
    (hf : find_source_by_sourcever l v = some sel)
    (hr : resolveAuthorization sel env.modalPage = some auth)
    (he : extractFileName env.contentDisposition = some fn)
    (hk : k < (chunks env.body).length) :
    ∃ tr, runProgram { model := m, command := some (Command.download v) } env
        (Fault.err k) = some (tr, 1) ∧
      (∃ tr0, tr = tr0 ++
        [Event.progressClose, Event.fileRemove fn, Event.print "Error!"]) ∧
      Event.progressClose ∈ tr ∧ Event.fileRemove fn ∈ tr ∧
      Event.print "Error!" ∈ tr ∧
      fileExistsAfter fn tr = false := by
  have hrun : runProgram { model := m, command := some (Command.download v) } env
      (Fault.err k) =
      some (([Event.netGet (Endpoint.search (urlQuote m)),
              Event.netGet (Endpoint.modal sel.uploadId), Event.netPost Endpoint.downSrc,
              Event.print (downloadMsg fn sel.sourceVersion),
              Event.progressInit env.contentLength, Event.fileOpen fn] ++
             streamEvents fn ((chunks env.body).take k) ++
             [Event.progressClose, Event.fileRemove fn, Event.print "Error!"]), 1) := by
    simp only [runProgram, hp, hf, hr, he, if_pos hk]
  refine ⟨_, hrun, ⟨_, rfl⟩, ?_, ?_, ?_, ?_⟩
  · simp
  · simp
  · simp
  · exact fileExistsAfter_cleanup fn _ "Error!"

/-- C5: a successful token resolution merges into the selected candidate
exactly the three values extracted from the modal page — the id of the
second checkbox input (`attachIds`), the value of the first form field
named `_csrf`, and the UTF-8 encoding of the value of the first element
with id `token` — while preserving the four original candidate fields
unchanged; the resulting `DownloadAuthorization` has exactly those seven
fields by construction of its type. -/
theorem C5_authorization_merge (c : ReleaseCandidate) (mp : ModalPage)
    (auth : DownloadAuthorization)
    (h : resolveAuthorization c mp = some auth) :
    auth.uploadId = c.uploadId ∧ auth.downloadPurpose = c.downloadPurpose ∧
    auth.sourceVersion = c.sourceVersion ∧ auth.sourceModel = c.sourceModel ∧
    ∃ cb ce te tv,
      (mp.elements.filter isCheckboxInput).get? 1 = some cb ∧
      cb.id = some auth.attachIds ∧
      (mp.elements.filter (fun e => e.name == some "_csrf")).get? 0 = some ce ∧
      ce.value = some auth.csrf ∧
      (mp.elements.filter (fun e => e.id == some "token")).get? 0 = some te ∧
      te.value = some tv ∧ auth.token = utf8Bytes tv := by
  simp only [resolveAuthorization, Option.bind_eq_bind, Option.bind_eq_some] at h
  obtain ⟨cb, hcb, aid, haid, ce, hce, cv, hcv, te, hte, tv, htv, hres⟩ := h
  simp only [Option.some.injEq] at hres
  subst hres
  exact ⟨rfl, rfl, rfl, rfl, cb, ce, te, tv, hcb, haid, hce, hcv, hte, htv, rfl⟩

/-- C6: a successful search parse takes the first table whose class list
holds the known CSS class, iterates its (class-less) rows in page order,
and produces one candidate per row, in the same order: the i-th candidate
comes from the i-th row, with `sourceModel` from cell 1, `sourceVersion`
from cell 2, `uploadId` as the second single-quote-split field of the
nested anchor's href in cell 5, and the constant `downloadPurpose`. -/
theorem C6_search_table_rows (p : SearchPage) (t : Table)
    (L : List ReleaseCandidate)
    (ht : (p.tables.filter (fun tb => tb.classes.contains "tbl-downList")).get? 0 = some t)
    (hL : parseSearch p = some L) :
    L.length = (t.rows.filter rowNoClass).length ∧
    ∀ i ri ci, (t.rows.filter rowNoClass).get? i = some ri → L.get? i = some ci →
      ci.downloadPurpose = "AOP" ∧
      ∃ mcell vcell idcell a hr uid,
        ri.cells.get? 1 = some mcell ∧ ri.cells.get? 2 = some vcell ∧
        ri.cells.get? 5 = some idcell ∧ idcell.anchors.get? 0 = some a ∧
        a.href = some hr ∧ (splitChar (Char.ofNat 39) hr.data).get? 1 = some uid ∧
        ci = { uploadId := String.mk uid, downloadPurpose := "AOP",
               sourceVersion := pyStripS vcell.text,
               sourceModel := pyStripS mcell.text } := by
  simp only [parseSearch, Option.bind_eq_bind, Option.bind_eq_some] at hL
  obtain ⟨t0, ht0, hrows⟩ := hL
  rw [ht] at ht0
  simp only [Option.some.injEq] at ht0
  subst ht0
  obtain ⟨hlen, hpt⟩ := parseRows_pointwise _ _ hrows
  refine ⟨hlen, ?_⟩
  intro i ri ci hri hci
  have hpr := hpt i ri ci hri hci
  obtain ⟨mcell, vcell, idcell, a, hr, uid, h1, h2, h5, ha, hh, hu, hceq⟩ :=
    parseRow_spec ri ci hpr
  refine ⟨by rw [hceq], mcell, vcell, idcell, a, hr, uid, h1, h2, h5, ha, hh, hu, hceq⟩

/-- C7 counterexample: for the header value `x=q"a;b"` the script derives
the filename `ab` — it removes the interior semicolon as well — while the
claimed rule, removing only the surrounding double quotes and semicolons
of the field, yields `a;b`.  The second field after splitting on `=` is
`q"a;b"`; stripping the leading character leaves `"a;b"`. -/
theorem C7_surrounding_cex :
    extractFileName "x=q\"a;b\"" = some "ab" ∧
    specFileName "x=q\"a;b\"" = some "a;b" ∧
    ("ab" : String) ≠ "a;b" := by
  exact ⟨by decide, by decide, by decide⟩

/-- C7 amended: the target filename is derived from the header value by
splitting on `=`, taking the second field, stripping its leading
character, and removing ALL double quotes and ALL semicolons from it
(every occurrence, not only the surrounding ones). -/
theorem C7_filename_removes_all (h : String) (f : List Char)
    (hf : (splitChar (Char.ofNat 61) h.data).get? 1 = some f) :
    extractFileName h =
      some (String.mk (((f.drop 1).filter (fun ch => ch != Char.ofNat 34)).filter
        (fun ch => ch != ';'))) := by
  simp only [extractFileName, Option.bind_eq_bind, hf, Option.some_bind,
    Option.some.injEq]
  rw [removeChar_eq_filter, removeChar_eq_filter]

/-- C8 counterexample: a well-formed search page whose version cell holds
only whitespace yields a candidate whose `sourceVersion` is the empty
string — the script never enforces non-emptiness. -/
def emptyVersionPage : SearchPage :=
  { tables := [
      { classes := ["tbl-downList"],
        rows := [
          { cls := none,
            cells := [
              { text := "x", anchors := [] },
              { text := " SM-A000 ", anchors := [] },
              { text := "   ", anchors := [] },
              { text := "", anchors := [] },
              { text := "", anchors := [] },
              { text := "", anchors := [
                  { href := some ("javascript:fnDown(" ++ String.mk [Char.ofNat 39] ++
                      "99999" ++ String.mk [Char.ofNat 39] ++ ");") } ] } ] } ] } ] }

/-- C8 counterexample: the Search Client returns a candidate list whose
single candidate has an empty `sourceVersion`, refuting the claim that
every returned `sourceVersion` is non-empty. -/
theorem C8_empty_version_cex :
    parseSearch emptyVersionPage =
      some [{ uploadId := "99999", downloadPurpose := "AOP",
              sourceVersion := "", sourceModel := "SM-A000" }] ∧
    ({ uploadId := "99999", downloadPurpose := "AOP", sourceVersion := "",
       sourceModel := "SM-A000" } : ReleaseCandidate).sourceVersion = "" := by
  exact ⟨by decide, rfl⟩

/-- C8 amended: every candidate's `sourceVersion` returned by the Search
Client is a whitespace-stripped string — it has no leading and no
trailing whitespace — though it may be empty when the version cell holds
only whitespace. -/
theorem C8_version_trimmed (p : SearchPage) (L : List ReleaseCandidate)
    (c : ReleaseCandidate) (hL : parseSearch p = some L) (hc : c ∈ L) :
    c.sourceVersion.data.dropWhile isPySpace = c.sourceVersion.data ∧
    c.sourceVersion.data.reverse.dropWhile isPySpace = c.sourceVersion.data.reverse := by
  simp only [parseSearch, Option.bind_eq_bind, Option.bind_eq_some] at hL
  obtain ⟨t, ht, hrows⟩ := hL
  obtain ⟨r, hr, hpr⟩ := parseRows_mem _ _ hrows c hc
  obtain ⟨mcell, vcell, idcell, a, hrf, uid, h1, h2, h5, ha, hh, hu, hceq⟩ :=
    parseRow_spec r c hpr
  subst hceq
  exact ⟨pyStrip_no_lead vcell.text.data, pyStrip_no_trail vcell.text.data⟩

/-! ## Concrete witness fixtures -/

/-- A well-formed anchor target `javascript:downSrc('UPLOAD42');` (the
single quotes written via their code point). -/
def wAnchorHref : String :=
  "javascript:downSrc(" ++ String.mk [Char.ofNat 39] ++ "UPLOAD42" ++
    String.mk [Char.ofNat 39] ++ ");"

/-- A well-formed search-table row. -/
def wRow : Row :=
  { cls := none,
    cells := [
      { text := "1", anchors := [] },
      { text := " SM-TEST ", anchors := [] },
      { text := "TEST-1.0", anchors := [] },
      { text := "a", anchors := [] },
      { text := "b", anchors := [] },
      { text := "c", anchors := [ { href := some wAnchorHref } ] } ] }

/-- A search table carrying the known CSS class and one row. -/
def wTable : Table :=
  { classes := ["tbl-downList"], rows := [wRow] }

/-- A well-formed search page. -/
def wPage : SearchPage :=
  { tables := [wTable] }

/-- The candidate parsed from `wRow`. -/
def wCand : ReleaseCandidate :=
  { uploadId := "UPLOAD42", downloadPurpose := "AOP",
    sourceVersion := "TEST-1.0", sourceModel := "SM-TEST" }

/-- A well-formed modal page: two checkbox inputs, a `_csrf` field and a
`token` field. -/
def wModal : ModalPage :=
  { elements := [
      { tag := "input", type := some "checkbox", name := none,
        id := some "cb0", value := none },
      { tag := "input", type := some "checkbox", name := none,
        id := some "ATTACH7", value := none },
      { tag := "input", type := none, name := some "_csrf",
        id := none, value := some "CSRFTOK" },
      { tag := "input", type := none, name := none,
        id := some "token", value := some "DLTOK" } ] }

/-- The authorization resolved from `wCand` and `wModal`. -/
def wAuth : DownloadAuthorization :=
  { uploadId := "UPLOAD42", downloadPurpose := "AOP", sourceVersion := "TEST-1.0",
    sourceModel := "SM-TEST", attachIds := "ATTACH7", csrf := "CSRFTOK",
    token := utf8Bytes "DLTOK" }

/-- A complete remote environment: search page, modal page, a
`Content-Disposition` header naming `src.zip`, and a 3-byte body. -/
def wEnv : Env :=
  { searchPage := wPage, modalPage := wModal,
    contentDisposition := "attachment;filename=\"src.zip\"",
    contentLength := 3, body := [10, 20, 30] }

/-! ## Witnesses -/

/-- C1 witness: concrete run requesting a version absent from the list. -/
theorem C1_witness :
    ((parseSearch wEnv.searchPage = some [wCand]) ∧
      ∀ c ∈ [wCand], c.sourceVersion ≠ "NOPE") ∧
    (runProgram { model := "SM-TEST", command := some (Command.download "NOPE") }
        wEnv Fault.ok =
      some ([Event.netGet (Endpoint.search (urlQuote "SM-TEST")),
             Event.print ("Invalid source version: " ++ "NOPE")], 1) ∧
    ∀ tr code,
      runProgram { model := "SM-TEST", command := some (Command.download "NOPE") }
          wEnv Fault.ok = some (tr, code) →
      (∀ u, Event.netGet (Endpoint.modal u) ∉ tr) ∧
        Event.netPost Endpoint.downSrc ∉ tr) :=
  ⟨⟨by decide, by decide⟩,
   C1_no_match_exits_before_network "SM-TEST" "NOPE" wEnv Fault.ok [wCand]
     (by decide) (by decide)⟩

/-- C3 witness: concrete interrupted download over `wEnv`. -/
theorem C3_witness :
    ((parseSearch wEnv.searchPage = some [wCand]) ∧
      find_source_by_sourcever [wCand] "TEST-1.0" = some wCand ∧
      resolveAuthorization wCand wEnv.modalPage = some wAuth ∧
      extractFileName wEnv.contentDisposition = some "src.zip" ∧
      0 < (chunks wEnv.body).length) ∧
    (∃ tr, runProgram { model := "SM-TEST", command := some (Command.download "TEST-1.0") }
        wEnv (Fault.keyboard 0) = some (tr, 130) ∧
      (∃ tr0, tr = tr0 ++
        [Event.progressClose, Event.fileRemove "src.zip", Event.print "Interrupted!"]) ∧
      Event.progressClose ∈ tr ∧ Event.fileRemove "src.zip" ∈ tr ∧
      Event.print "Interrupted!" ∈ tr ∧
      fileExistsAfter "src.zip" tr = false) :=
  ⟨⟨by decide, by decide, by decide, by decide, chunks_len_pos wEnv.body (by decide)⟩,
   C3_interrupt_cleanup "SM-TEST" "TEST-1.0" wEnv [wCand] wCand wAuth "src.zip" 0
     (by decide) (by decide) (by decide) (by decide)
     (chunks_len_pos wEnv.body (by decide))⟩

/-- C4 witness: concrete failed download over `wEnv`. -/
theorem C4_witness :
    ((parseSearch wEnv.searchPage = some [wCand]) ∧
      find_source_by_sourcever [wCand] "TEST-1.0" = some wCand ∧
      resolveAuthorization wCand wEnv.modalPage = some wAuth ∧
      extractFileName wEnv.contentDisposition = some "src.zip" ∧
      0 < (chunks wEnv.body).length) ∧
    (∃ tr, runProgram { model := "SM-TEST", command := some (Command.download "TEST-1.0") }
        wEnv (Fault.err 0) = some (tr, 1) ∧
      (∃ tr0, tr = tr0 ++
        [Event.progressClose, Event.fileRemove "src.zip", Event.print "Error!"]) ∧
      Event.progressClose ∈ tr ∧ Event.fileRemove "src.zip" ∈ tr ∧
      Event.print "Error!" ∈ tr ∧
      fileExistsAfter "src.zip" tr = false) :=
  ⟨⟨by decide, by decide, by decide, by decide, chunks_len_pos wEnv.body (by decide)⟩,
   C4_error_cleanup "SM-TEST" "TEST-1.0" wEnv [wCand] wCand wAuth "src.zip" 0
     (by decide) (by decide) (by decide) (by decide)
     (chunks_len_pos wEnv.body (by decide))⟩

/-- C5 witness: concrete token resolution over `wModal`. -/
theorem C5_witness :
    (resolveAuthorization wCand wModal = some wAuth) ∧
    (wAuth.uploadId = wCand.uploadId ∧ wAuth.downloadPurpose = wCand.downloadPurpose ∧
     wAuth.sourceVersion = wCand.sourceVersion ∧ wAuth.sourceModel = wCand.sourceModel ∧
     ∃ cb ce te tv,
       (wModal.elements.filter isCheckboxInput).get? 1 = some cb ∧
       cb.id = some wAuth.attachIds ∧
       (wModal.elements.filter (fun e => e.name == some "_csrf")).get? 0 = some ce ∧
       ce.value = some wAuth.csrf ∧
       (wModal.elements.filter (fun e => e.id == some "token")).get? 0 = some te ∧
       te.value = some tv ∧ wAuth.token = utf8Bytes tv) :=
  ⟨by decide, C5_authorization_merge wCand wModal wAuth (by decide)⟩

/-- C6 witness: concrete search parse over `wPage`. -/
theorem C6_witness :
    ((wPage.tables.filter (fun tb => tb.classes.contains "tbl-downList")).get? 0 =
        some wTable ∧
      parseSearch wPage = some [wCand]) ∧
    ([wCand].length = (wTable.rows.filter rowNoClass).length ∧
     ∀ i ri ci, (wTable.rows.filter rowNoClass).get? i = some ri →
       [wCand].get? i = some ci →
       ci.downloadPurpose = "AOP" ∧
       ∃ mcell vcell idcell a hr uid,
         ri.cells.get? 1 = some mcell ∧ ri.cells.get? 2 = some vcell ∧
         ri.cells.get? 5 = some idcell ∧ idcell.anchors.get? 0 = some a ∧
         a.href = some hr ∧ (splitChar (Char.ofNat 39) hr.data).get? 1 = some uid ∧
         ci = { uploadId := String.mk uid, downloadPurpose := "AOP",
                sourceVersion := pyStripS vcell.text,
                sourceModel := pyStripS mcell.text }) :=
  ⟨⟨by decide, by decide⟩,
   C6_search_table_rows wPage wTable [wCand] (by decide) (by decide)⟩

/-- C7 (amended) witness: concrete header with a quoted filename. -/
theorem C7_witness :
    ((splitChar (Char.ofNat 61) ("attachment;filename=\"pkg.zip\"" : String).data).get? 1 =
        some ("\"pkg.zip\"" : String).data) ∧
    extractFileName "attachment;filename=\"pkg.zip\"" =
      some (String.mk (((("\"pkg.zip\"" : String).data.drop 1).filter
        (fun ch => ch != Char.ofNat 34)).filter (fun ch => ch != ';'))) :=
  ⟨by decide,
   C7_filename_removes_all "attachment;filename=\"pkg.zip\""
     ("\"pkg.zip\"" : String).data (by decide)⟩

/-- C8 (amended) witness: the candidate parsed from `wPage` carries a
trimmed version string. -/
theorem C8_witness :
    ((parseSearch wPage = some [wCand]) ∧ wCand ∈ [wCand]) ∧
    (wCand.sourceVersion.data.dropWhile isPySpace = wCand.sourceVersion.data ∧
     wCand.sourceVersion.data.reverse.dropWhile isPySpace =
       wCand.sourceVersion.data.reverse) :=
  ⟨⟨by decide, by decide⟩,
   C8_version_trimmed wPage [wCand] wCand (by decide) (by decide)⟩

/-- C9 witness: concrete single-candidate list whose head matches. -/
theorem C9_witness :
    ((wCand.sourceVersion = "TEST-1.0") ∧
      ∀ x ∈ ([] : List ReleaseCandidate), x.sourceVersion ≠ "TEST-1.0") ∧
    (find_source_by_sourcever ([] ++ wCand :: []) "TEST-1.0" = some wCand ∧
    ∀ m env fault tr code,
      parseSearch env.searchPage = some ([] ++ wCand :: []) →
      runProgram { model := m, command := some (Command.download "TEST-1.0") } env fault =
        some (tr, code) →
      ∀ u, Event.netGet (Endpoint.modal u) ∈ tr → u = wCand.uploadId) :=
  ⟨⟨by decide, by decide⟩,
   C9_first_match_selected "TEST-1.0" [] [] wCand (by decide) (by decide)⟩

/-- C10 witness: concrete run with no subcommand over `wEnv`. -/
theorem C10_witness :
    (parseSearch wEnv.searchPage = some [wCand]) ∧
    (runProgram { model := "SM-TEST", command := none } wEnv Fault.ok =
        some ([Event.netGet (Endpoint.search (urlQuote "SM-TEST"))], 0) ∧
    ∀ tr code,
      runProgram { model := "SM-TEST", command := none } wEnv Fault.ok =
        some (tr, code) →
      code = 0 ∧ Event.netGet (Endpoint.search (urlQuote "SM-TEST")) ∈ tr ∧
        ∀ s, Event.print s ∉ tr) :=
  ⟨by decide,
   C10_no_subcommand_search_only "SM-TEST" wEnv Fault.ok [wCand] (by decide)⟩
